import Mathlib

/-!
Shallow embedding of the JSON-LD active-context construction core of the
`jsonld-rs` repository (`src/creation.rs`), together with theorems settling
the specification's claims about it.

Modelling conventions:
* `serde_json::Value` is the inductive `Value` below; `serde_json::Map`
  (a `BTreeMap`, iterated in sorted key order) and `HashMap` are modelled as
  association lists with first-occurrence lookup and in-place replacement on
  insert.  Concrete object literals in this file are written with their keys
  in sorted order, so taking the head of the list coincides with
  `map.keys().next()` on a `BTreeMap`.
* `url::Url` is modelled by the structure `Url`, covering the facets of
  WHATWG URL parsing/joining that the library exercises: hierarchical
  `scheme://host/path` URLs, opaque (cannot-be-a-base) URLs such as
  `mailto:x@y`, and relative-reference resolution against a hierarchical
  base.  `Url::join` on a cannot-be-a-base base returns
  `Err(RelativeUrlWithCannotBeABaseBase)` in the `url` crate; it is `none`
  here.  A `none` result of a modelled total-in-the-source `.unwrap()` call
  therefore represents a Rust panic.
* Fallible Rust functions returning `Result` become `Except`-valued
  functions; the recursive ones additionally take a fuel parameter and
  return `Option (Except ..)`, where `none` means "fuel exhausted" (the
  source recursion is bounded by the structure of the input, so every
  concrete run below is given ample fuel).
-/

/-- Prefix test on character lists: `listIsPre p l` iff `p` is a prefix of `l`. -/
def listIsPre : List Char → List Char → Bool
  | [], _ => true
  | _ :: _, [] => false
  | p :: ps, c :: cs => p == c && listIsPre ps cs

/-- `str::starts_with` of the Rust standard library. -/
def strStarts (s p : String) : Bool := listIsPre p.data s.data

/-- Substring containment on character lists. -/
def listHasSub (pat : List Char) : List Char → Bool
  | [] => pat.isEmpty
  | c :: rest => listIsPre pat (c :: rest) || listHasSub pat rest

/-- `str::contains` with a string pattern (used for `":"`, `"://"`). -/
def strHasSub (s pat : String) : Bool := listHasSub pat.data s.data

/-- Split a character list at the first occurrence of `c` (the separator is
dropped); `none` when `c` does not occur. -/
def listSplitAtCh (c : Char) : List Char → Option (List Char × List Char)
  | [] => none
  | x :: xs =>
    if x == c then some ([], xs)
    else
      match listSplitAtCh c xs with
      | none => none
      | some (a, b) => some (x :: a, b)

/-- `val.find(c)` followed by taking the part before and after the first
occurrence of `c`. -/
def strSplitFirst (c : Char) (s : String) : Option (String × String) :=
  (listSplitAtCh c s.data).map (fun p => (String.mk p.1, String.mk p.2))

/-- Split a character list at every occurrence of `c`. -/
def listSplitAll (c : Char) : List Char → List (List Char)
  | [] => [[]]
  | x :: xs =>
    let r := listSplitAll c xs
    if x == c then [] :: r
    else
      match r with
      | [] => [[x]]
      | h :: t => (x :: h) :: t

/-- Split a string at every occurrence of `c` (like `str::split`). -/
def strSplitAll (c : Char) (s : String) : List String :=
  (listSplitAll c s.data).map String.mk

/-- Drop the first `n` characters of a string. -/
def strDrop (s : String) (n : Nat) : String := String.mk (s.data.drop n)

/-- `str::to_lowercase` (ASCII facet, which is what the library's inputs use). -/
def strLower (s : String) : String := String.mk (s.data.map Char.toLower)

/-- Model of `url::Url` restricted to the shapes the library exercises:
either a hierarchical URL `scheme://host/seg0/seg1/...` (with
`pathSegs = [seg0, seg1, ...]`; a trailing slash shows up as a trailing `""`
segment) or a cannot-be-a-base URL `scheme:opaquePath`. -/
structure Url where
  scheme : String
  host : String
  pathSegs : List String
  cannotBeABase : Bool
  opaquePath : String
deriving DecidableEq

/-- RFC 3986 scheme syntax: one letter followed by letters, digits, `+`, `-`, `.`. -/
def schemeOk (s : String) : Bool :=
  match s.data with
  | [] => false
  | c :: rest => c.isAlpha && rest.all (fun ch => ch.isAlphanum || ch == '+' || ch == '-' || ch == '.')

/-- Model of `url::Url::parse`.  `scheme://host/...` parses to a hierarchical
URL (empty host is rejected, as the crate does for special schemes);
`scheme:rest` without `//` parses to a cannot-be-a-base URL (so
`Url::parse("mailto:x@y")` succeeds and has an opaque path); anything
without a valid scheme is rejected (`RelativeUrlWithoutBase` in the crate). -/
def Url.parse (s : String) : Option Url :=
  match strSplitFirst ':' s with
  | none => none
  | some (sc, rest) =>
    if schemeOk sc then
      if strStarts rest "//" then
        let after := strDrop rest 2
        match strSplitFirst '/' after with
        | some (h, pathRest) =>
          if h == "" then none
          else some ⟨sc, h, strSplitAll '/' pathRest, false, ""⟩
        | none =>
          if after == "" then none
          else some ⟨sc, after, [""], false, ""⟩
      else some ⟨sc, "", [], true, rest⟩
    else none

/-- RFC 3986 `remove_dot_segments` on a segment list (facet: handles `.` and
`..` segments; the inputs in this development contain neither). -/
def remDot (l : List String) : List String :=
  l.foldl (fun acc s => if s == "." then acc else if s == ".." then acc.dropLast else acc ++ [s]) []

/-- `url::Url::to_string` / `as_str` for the modelled shapes. -/
def Url.toString (u : Url) : String :=
  if u.cannotBeABase then u.scheme ++ ":" ++ u.opaquePath
  else u.scheme ++ "://" ++ u.host ++ "/" ++ String.intercalate "/" u.pathSegs

/-- Model of `url::Url::join` (RFC 3986 reference resolution).  An absolute
reference replaces the base; joining a non-absolute reference onto a
cannot-be-a-base base fails (`RelativeUrlWithCannotBeABaseBase` in the
crate), modelled as `none`; otherwise the usual merge of the base path and
the reference. -/
def Url.join (u : Url) (ref : String) : Option Url :=
  match Url.parse ref with
  | some v => some v
  | none =>
    if u.cannotBeABase then none
    else if strStarts ref "//" then
      let after := strDrop ref 2
      match strSplitFirst '/' after with
      | some (h, pathRest) =>
        if h == "" then none
        else some ⟨u.scheme, h, strSplitAll '/' pathRest, false, ""⟩
      | none =>
        if after == "" then none
        else some ⟨u.scheme, after, [""], false, ""⟩
    else if ref == "" then some u
    else if strStarts ref "/" then
      some ⟨u.scheme, u.host, remDot (strSplitAll '/' (strDrop ref 1)), false, ""⟩
    else
      some ⟨u.scheme, u.host, remDot (u.pathSegs.dropLast ++ strSplitAll '/' ref), false, ""⟩

/-- `serde_json::Value`. -/
inductive Value where
  | null
  | bool (b : Bool)
  | num (n : Int)
  | str (s : String)
  | arr (elems : List Value)
  | obj (entries : List (String × Value))

/-- First-occurrence lookup in an association list (`Map::get` / `contains_key`). -/
def aFind {α : Type} : List (String × α) → String → Option α
  | [], _ => none
  | (k, v) :: rest, key => if k == key then some v else aFind rest key

/-- Remove the first occurrence of a key (`Map::remove`, dropping the value). -/
def aErase {α : Type} : List (String × α) → String → List (String × α)
  | [], _ => []
  | (k, v) :: rest, key => if k == key then rest else (k, v) :: aErase rest key

/-- `Map::remove`: the removed value (if any) and the shrunken map. -/
def aRemove {α : Type} (m : List (String × α)) (key : String) : Option α × List (String × α) :=
  (aFind m key, aErase m key)

/-- `Map::insert` / `HashMap::insert`: replace in place, else append. -/
def aInsert {α : Type} : List (String × α) → String → α → List (String × α)
  | [], key, v => [(key, v)]
  | (k, w) :: rest, key, v =>
    if k == key then (k, v) :: rest else (k, w) :: aInsert rest key v

abbrev JMap := List (String × Value)

/-- `Term` of `src/context.rs`, with the fields `src/creation.rs` populates. -/
structure Term where
  type_mapping : Option String
  iri_mapping : String
  reverse : Bool
  container_mapping : Option String
  language_mapping : Option String
deriving DecidableEq

/-- `Context` of `src/context.rs`: base IRI, vocabulary mapping, default
language and the term definitions (`BTreeMap<String, Term>`). -/
structure Context where
  base_iri : Option Url
  vocabulary_mapping : Option String
  language : Option String
  terms : List (String × Term)
deriving DecidableEq

/-- `Context::new` (src/creation.rs:132-139). -/
def Context.new : Context := ⟨none, none, none, []⟩

/-- `DefineStatus` (src/creation.rs:16-19). -/
inductive DefineStatus where
  | Defining
  | Defined
deriving DecidableEq

abbrev DMap := List (String × DefineStatus)

/-- `TermCreationError` (src/creation.rs:22-32). -/
inductive TermCreationError where
  | CyclicIRIMapping
  | KeywordRedefinition
  | InvalidTermDefinition
  | InvalidIRIMapping
  | InvalidReverseProperty
  | InvalidKeywordAlias
  | InvalidContainerMapping
  | InvalidLanguageMapping
  | InvalidTypeMapping
deriving DecidableEq

/-- `ContextCreationError` (src/creation.rs:61-73), with the loader's opaque
error type instantiated to `String`. -/
inductive ContextCreationError where
  | InvalidTerm (e : TermCreationError)
  | RemoteContextError (e : String)
  | RemoteContextNoObject
  | RecursiveContextInclusion
  | InvalidBaseIRI
  | InvalidVocabMapping
  | InvalidLanguageMapping
  | InvalidLocalContext
  | TooManyContexts
deriving DecidableEq

/-- The `KEYWORDS` set (src/creation.rs:111-129). -/
def KEYWORDS : List String :=
  ["@context", "@id", "@value", "@language", "@type", "@container", "@list",
   "@set", "@reverse", "@index", "@base", "@vocab", "@graph"]

/-- `Context::expand_iri` (src/creation.rs:207-252), the pure expander.
The source unwraps `base_iri.join(val)` in step 6; a failing join there is a
panic, modelled as `none`.  Every other path returns `some`. -/
def expandIri (ctx : Context) (val : String) (documentRelative vocab : Bool) : Option String :=
  if strStarts val "@" then
    -- 1
    some val
  else
    match (if vocab then aFind ctx.terms val else none) with
    | some term =>
      -- 3
      some term.iri_mapping
    | none =>
      -- 4
      match strSplitFirst ':' val with
      | some (pre, suf) =>
        -- 4.1
        if pre == "_" || strStarts suf "//" then
          -- 4.2
          some val
        else
          match aFind ctx.terms pre with
          | some term =>
            -- 4.4
            some (term.iri_mapping ++ suf)
          | none =>
            -- 4.5
            some val
      | none =>
        if vocab && ctx.vocabulary_mapping.isSome then
          -- 5
          some (ctx.vocabulary_mapping.getD "" ++ val)
        else
          match documentRelative, ctx.base_iri with
          | true, some baseIri =>
            -- 6: `base_iri.join(val).unwrap()` — a failed join panics.
            (baseIri.join val).map Url.toString
          | _, _ =>
            -- 7
            some val

/-- The mutable state threaded through term definition: the active context
(`self`), the residual local-context object (`context`) and the `defined`
map, i.e. the three `&mut` parameters of `create_term`/`expand_iri_mut`. -/
structure TState where
  ctx : Context
  lctx : JMap
  defined : DMap

/-- Error-propagating sequencing on fuel-aware results (`?` in the source);
`none` (out of fuel) propagates. -/
def andThenR {ε α β : Type} (x : Option (Except ε α)) (f : α → Option (Except ε β)) :
    Option (Except ε β) :=
  match x with
  | none => none
  | some (Except.error e) => some (Except.error e)
  | some (Except.ok a) => f a

/-- Reverse-branch `@container` validation (src/creation.rs:348-362): only
`"@set"`, `"@index"` or `null` are accepted. -/
def revContainer (atContainer : Option Value) : Except TermCreationError (Option String) :=
  match atContainer with
  | none => .ok none
  | some (.str s) =>
    if s == "@set" || s == "@index" then .ok (some s)
    else .error .InvalidReverseProperty
  | some .null => .ok none
  | some _ => .error .InvalidReverseProperty

/-- Forward-branch `@container` validation (src/creation.rs:445-463). -/
def fwdContainer (atContainer : Option Value) : Except TermCreationError (Option String) :=
  match atContainer with
  | none => .ok none
  | some (.str s) =>
    if s == "@list" || s == "@set" || s == "@index" || s == "@language" then .ok (some s)
    else .error .InvalidContainerMapping
  | some _ => .error .InvalidContainerMapping

/-- Forward-branch `@language` handling (src/creation.rs:466-481): only
considered when no type mapping was set.  (The source removes `@language`
from the raw map only in that case; since the raw map is discarded
afterwards, taking the already-removed value here is equivalent.) -/
def fwdLanguage (typeMapping : Option String) (atLanguage : Option Value) :
    Except TermCreationError (Option String) :=
  match typeMapping with
  | some _ => .ok none
  | none =>
    match atLanguage with
    | none => .ok none
    | some (.str s) => .ok (some (strLower s))
    | some .null => .ok (some "@null")
    | some _ => .error .InvalidLanguageMapping

mutual

/-- `Context::create_term` (src/creation.rs:254-502).  The fuel decreases on
every (mutually) recursive call; `none` means fuel ran out. -/
def createTerm (fuel : Nat) (st : TState) (term : String) (value : Value) :
    Option (Except TermCreationError TState) :=
  match fuel with
  | 0 => none
  | Nat.succ f =>
    -- 1
    match aFind st.defined term with
    | some DefineStatus.Defining => some (.error .CyclicIRIMapping)
    | some DefineStatus.Defined => some (.ok st)
    | none =>
      -- 2
      let st := { st with defined := aInsert st.defined term .Defining }
      -- 3
      if KEYWORDS.contains term then some (.error .KeywordRedefinition)
      else
        -- 4
        let st := { st with ctx := { st.ctx with terms := aErase st.ctx.terms term } }
        -- 7: a string raw value is promoted to `{"@id": value}`; the
        -- promotion is inlined into the value match, which is why the
        -- source's `Value::String(_) => unreachable!()` arm has no
        -- counterpart here.
        match value with
        | .null =>
          -- 6: placeholder definition; note that `defined` stays `Defining`.
          some (.ok { st with
            ctx := { st.ctx with terms := aInsert st.ctx.terms term ⟨none, term, false, none, none⟩ } })
        | .str s => createTermObj f st term [("@id", .str s)]
        | .obj map => createTermObj f st term map
        | _ =>
          -- 8
          some (.error .InvalidTermDefinition)

/-- The object case of `create_term` (src/creation.rs:305-496, steps 10-18),
operating on the raw definition object `map`. -/
def createTermObj (fuel : Nat) (st : TState) (term : String) (map : JMap) :
    Option (Except TermCreationError TState) :=
  match fuel with
  | 0 => none
  | Nat.succ f =>
    -- 10
    let p1 := aRemove map "@type"
    andThenR (computeTypeMapping f st p1.1) fun r1 =>
    let typeMapping := r1.1
    -- 11
    let p2 := aRemove p1.2 "@reverse"
    match p2.1 with
    | some atReverse =>
      -- 11.1
      if (aFind p2.2 "@id").isSome then some (.error .InvalidReverseProperty)
      else
        andThenR (computeReverseIri f r1.2 atReverse) fun r2 =>
        -- 11.4
        let p3 := aRemove p2.2 "@container"
        match revContainer p3.1 with
        | .error e => some (.error e)
        | .ok containerMapping =>
          -- 11.6
          some (.ok { r2.2 with
            ctx := { r2.2.ctx with terms :=
              (aInsert r2.2.ctx.terms term (Term.mk typeMapping r2.1 true containerMapping none)) },
            defined := aInsert r2.2.defined term .Defined })
    | none =>
      -- 13
      let p3 := aRemove p2.2 "@id"
      andThenR (computeIriFromId f r1.2 term p3.1) fun r2 =>
      -- 14
      andThenR (match r2.1 with
        | some i => some (.ok (some i, r2.2))
        | none =>
          match strSplitFirst ':' term with
          | some fs =>
            andThenR (fallbackColon f r2.2 term fs.1 fs.2) fun r3 =>
              some (.ok (some r3.1, r3.2))
          | none => some (.ok ((none : Option String), r2.2))) fun r3 =>
      -- 15
      match (match r3.1 with
        | some i => Except.ok i
        | none =>
          match r3.2.ctx.vocabulary_mapping with
          | some vocab => Except.ok (vocab ++ term)
          | none => Except.error TermCreationError.InvalidIRIMapping) with
      | .error e => some (.error e)
      | .ok iriMapping =>
        -- 16
        let p4 := aRemove p3.2 "@container"
        match fwdContainer p4.1 with
        | .error e => some (.error e)
        | .ok containerMapping =>
          -- 17
          let p5 := aRemove p4.2 "@language"
          match fwdLanguage typeMapping p5.1 with
          | .error e => some (.error e)
          | .ok languageMapping =>
            -- 18
            some (.ok { r3.2 with
              ctx := { r3.2.ctx with terms :=
                (aInsert r3.2.ctx.terms term
                  (Term.mk typeMapping iriMapping false containerMapping languageMapping)) },
              defined := aInsert r3.2.defined term .Defined })

/-- `@type` handling inside `create_term` (src/creation.rs:307-323). -/
def computeTypeMapping (fuel : Nat) (st : TState) (atType : Option Value) :
    Option (Except TermCreationError (Option String × TState)) :=
  match fuel with
  | 0 => none
  | Nat.succ f =>
    match atType with
    | none => some (.ok (none, st))
    | some (.str s) =>
      -- 10.2
      andThenR (expandIriMut f st s false true) fun r =>
      if !strHasSub r.1 ":" && !(r.1 == "@id") && !(r.1 == "@vocab") then
        some (.error .InvalidTypeMapping)
      else some (.ok (some r.1, r.2))
    | some _ =>
      -- 10.1
      some (.error .InvalidTypeMapping)

/-- `@reverse` value handling inside `create_term` (src/creation.rs:332-345). -/
def computeReverseIri (fuel : Nat) (st : TState) (atReverse : Value) :
    Option (Except TermCreationError (String × TState)) :=
  match fuel with
  | 0 => none
  | Nat.succ f =>
    match atReverse with
    | .str s =>
      andThenR (expandIriMut f st s false true) fun r =>
      if !strHasSub r.1 ":" then some (.error .InvalidIRIMapping)
      else some (.ok r)
    | _ =>
      -- 11.2
      some (.error .InvalidIRIMapping)

/-- `@id` handling inside `create_term` (src/creation.rs:379-407): an `@id`
string equal to the term yields no IRI mapping. -/
def computeIriFromId (fuel : Nat) (st : TState) (term : String) (atId : Option Value) :
    Option (Except TermCreationError (Option String × TState)) :=
  match fuel with
  | 0 => none
  | Nat.succ f =>
    match atId with
    | none => some (.ok (none, st))
    | some (.str s) =>
      if s == term then some (.ok (none, st))
      else
        -- 13.2
        andThenR (expandIriMut f st s false true) fun r =>
        if r.1 == "@context" then some (.error .InvalidKeywordAlias)
        else if !strStarts r.1 "@" && !strStarts r.1 "_:" && !strHasSub r.1 "://" then
          some (.error .InvalidIRIMapping)
        else some (.ok (some r.1, r.2))
    | some .null => some (.ok (some term, st))
    | some _ =>
      -- 13.1
      some (.error .InvalidIRIMapping)

/-- Step 14 of `create_term` (src/creation.rs:410-431), reached when no IRI
mapping was derived and the term contains a colon; `first`/`secondTail` are
the parts before and after the first colon. -/
def fallbackColon (fuel : Nat) (st : TState) (term first secondTail : String) :
    Option (Except TermCreationError (String × TState)) :=
  match fuel with
  | 0 => none
  | Nat.succ f =>
    -- 14.1
    andThenR (match aFind st.lctx first with
      | some termValue => createTerm f { st with lctx := aErase st.lctx first } first termValue
      | none => some (.ok st)) fun st2 =>
    -- 14.2 / 14.3
    match aFind st2.ctx.terms first with
    | some firstTerm => some (.ok (firstTerm.iri_mapping ++ secondTail, st2))
    | none => some (.ok (term, st2))

/-- `Context::expand_iri_mut` (src/creation.rs:141-205).  Step 6's
`base_iri.join(val).unwrap()` can panic; since this mode's plumbing cannot
surface it as an error, a failed join is modelled as `none` (the claims
never exercise that path: `create_term` always calls with
`document_relative = false`). -/
def expandIriMut (fuel : Nat) (st : TState) (val : String) (documentRelative vocab : Bool) :
    Option (Except TermCreationError (String × TState)) :=
  match fuel with
  | 0 => none
  | Nat.succ f =>
    if strStarts val "@" then
      -- 1
      some (.ok (val, st))
    else
      -- 2
      andThenR (match aFind st.lctx val, aFind st.defined val with
        | some unwrapped, none => createTerm f { st with lctx := aErase st.lctx val } val unwrapped
        | _, _ => some (.ok st)) fun st2 =>
      match (if vocab then aFind st2.ctx.terms val else none) with
      | some term =>
        -- 3
        some (.ok (term.iri_mapping, st2))
      | none =>
        -- 4
        match strSplitFirst ':' val with
        | some ps =>
          -- 4.1
          if ps.1 == "_" || strStarts ps.2 "//" then
            -- 4.2
            some (.ok (val, st2))
          else
            -- 4.3
            andThenR (match aFind st2.lctx ps.1, aFind st2.defined ps.1 with
              | some unwrapped, none =>
                createTerm f { st2 with lctx := aErase st2.lctx ps.1 } ps.1 unwrapped
              | _, _ => some (.ok st2)) fun st3 =>
            match aFind st3.ctx.terms ps.1 with
            | some term =>
              -- 4.4
              some (.ok (term.iri_mapping ++ ps.2, st3))
            | none =>
              -- 4.5
              some (.ok (val, st3))
        | none =>
          if vocab && st2.ctx.vocabulary_mapping.isSome then
            -- 5
            some (.ok (st2.ctx.vocabulary_mapping.getD "" ++ val, st2))
          else
            match documentRelative, st2.ctx.base_iri with
            | true, some baseIri =>
              -- 6
              match baseIri.join val with
              | some j => some (.ok (j.toString, st2))
              | none => none
            | _, _ =>
              -- 7
              some (.ok (val, st2))

end

/-- The term-drain loop of `process_context` (src/creation.rs:615-622):
repeatedly take the first remaining key (`serde_json::Map` iterates in
sorted key order; object literals in this file are written sorted) and
define it. -/
def drain (fuel : Nat) (ctx : Context) (map : JMap) (defined : DMap) :
    Option (Except TermCreationError (Context × DMap)) :=
  match fuel with
  | 0 => none
  | Nat.succ f =>
    match map with
    | [] => some (.ok (ctx, defined))
    | (key, val) :: rest =>
      andThenR (createTerm f ⟨ctx, rest, defined⟩ key val) fun st =>
        drain f st.ctx st.lctx st.defined

/-- `@base` handling of the inline-object branch (src/creation.rs:570-590):
only applied when the element's `@base` exists and `remote_contexts` is
empty. -/
def applyBase (ctx : Context) (map : JMap) (remoteEmpty : Bool) :
    Except ContextCreationError (Context × JMap) :=
  let p := aRemove map "@base"
  match p.1, remoteEmpty with
  | some v, true =>
    match v with
    | .null => .ok ({ ctx with base_iri := none }, p.2)
    | .str s =>
      match ctx.base_iri with
      | some iri =>
        match iri.join s with
        | some j => .ok ({ ctx with base_iri := some j }, p.2)
        | none => .error .InvalidBaseIRI
      | none =>
        match Url.parse s with
        | some j => .ok ({ ctx with base_iri := some j }, p.2)
        | none => .error .InvalidBaseIRI
    | _ => .error .InvalidBaseIRI
  | _, _ => .ok (ctx, p.2)

/-- `@vocab` handling (src/creation.rs:593-602). -/
def applyVocab (ctx : Context) (map : JMap) : Except ContextCreationError (Context × JMap) :=
  let p := aRemove map "@vocab"
  match p.1 with
  | none => .ok (ctx, p.2)
  | some .null => .ok ({ ctx with vocabulary_mapping := none }, p.2)
  | some (.str data) => .ok ({ ctx with vocabulary_mapping := some data }, p.2)
  | some _ => .error .InvalidVocabMapping

/-- `@language` handling (src/creation.rs:604-613). -/
def applyLanguage (ctx : Context) (map : JMap) : Except ContextCreationError (Context × JMap) :=
  let p := aRemove map "@language"
  match p.1 with
  | none => .ok (ctx, p.2)
  | some .null => .ok ({ ctx with language := none }, p.2)
  | some (.str data) => .ok ({ ctx with language := some (strLower data) }, p.2)
  | some _ => .error .InvalidLanguageMapping

/-- The remote-context loader capability (`RemoteContextLoader::load_context`),
with its opaque error type instantiated to `String`. -/
abbrev Loader := String → Except String Value

abbrev RMap := List (String × Option Value)

/-- Step 2 of `process_context` (src/creation.rs:510-513): a non-array local
context is wrapped in a singleton sequence. -/
def flattenLc : Value → List Value
  | .arr a => a
  | v => [v]

/-- The element loop of `Context::process_context` (src/creation.rs:516-627).
The nested `process_context` recursion on a remote context's value is
inlined as recursion on the flattened value (the source re-flattens in the
recursive call).  Fuel decreases on every recursive call. -/
def processElems (fuel : Nat) (ldr : Loader) (ctx : Context) (l : List Value) (remote : RMap) :
    Option (Except ContextCreationError (RMap × Context)) :=
  match fuel with
  | 0 => none
  | Nat.succ f =>
    match l with
    | [] => some (.ok (remote, ctx))
    | e :: rest =>
      match e with
      | .null =>
        -- 3.1 (src/creation.rs:519-522): `self = Context::new();
        -- self.base_iri = self.base_iri.clone();` — the second statement
        -- reads the base of the context just allocated, so it is a no-op.
        let s := Context.new
        let s := { s with base_iri := s.base_iri }
        processElems f ldr s rest remote
      | .str val =>
        -- 3.2 (src/creation.rs:525-568)
        if 4 < remote.length then some (.error .TooManyContexts)
        else
          match aFind remote val with
          | some none => some (.error .RecursiveContextInclusion)
          | some (some contextVal) =>
            andThenR (processElems f ldr ctx (flattenLc contextVal) remote) fun rs =>
              processElems f ldr rs.2 rest (aInsert rs.1 val (some contextVal))
          | none =>
            -- 3.2.3
            match ldr val with
            | .error e => some (.error (.RemoteContextError e))
            | .ok dereferenced =>
              let remote2 := aInsert remote val none
              match dereferenced with
              | .obj obj =>
                let contextVal := (aRemove obj "@context").1.getD (.obj [])
                -- 3.2.4
                andThenR (processElems f ldr ctx (flattenLc contextVal) remote2) fun rs =>
                  processElems f ldr rs.2 rest (aInsert rs.1 val (some contextVal))
              | _ => some (.error .RemoteContextNoObject)
      | .obj map =>
        match applyBase ctx map remote.isEmpty with
        | .error e => some (.error e)
        | .ok pb =>
          match applyVocab pb.1 pb.2 with
          | .error e => some (.error e)
          | .ok pv =>
            match applyLanguage pv.1 pv.2 with
            | .error e => some (.error e)
            | .ok pl =>
              match drain f pl.1 pl.2 [] with
              | none => none
              | some (.error te) => some (.error (.InvalidTerm te))
              | some (.ok pd) => processElems f ldr pd.1 rest remote
      | _ =>
        -- 3.3
        some (.error .InvalidLocalContext)

/-- `Context::process_context` (src/creation.rs:504-630). -/
def processContext (fuel : Nat) (ldr : Loader) (ctx : Context) (localContext : Value)
    (remote : RMap) : Option (Except ContextCreationError (RMap × Context)) :=
  processElems fuel ldr ctx (flattenLc localContext) remote

/-- A loader that never succeeds, for runs that fetch nothing. -/
def noLoader : Loader := fun _ => .error "unavailable"

/-- A loader serving a chain of six remote context references
`u1 -> u2 -> ... -> u6 -> {}`. -/
def chainLdr6 : Loader := fun u =>
  if u == "u1" then .ok (.obj [("@context", .str "u2")])
  else if u == "u2" then .ok (.obj [("@context", .str "u3")])
  else if u == "u3" then .ok (.obj [("@context", .str "u4")])
  else if u == "u4" then .ok (.obj [("@context", .str "u5")])
  else if u == "u5" then .ok (.obj [("@context", .str "u6")])
  else if u == "u6" then .ok (.obj [("@context", .obj [])])
  else .error "missing"

/-- A loader serving a chain of five remote context references
`u1 -> u2 -> ... -> u5 -> {}`. -/
def chainLdr5 : Loader := fun u =>
  if u == "u1" then .ok (.obj [("@context", .str "u2")])
  else if u == "u2" then .ok (.obj [("@context", .str "u3")])
  else if u == "u3" then .ok (.obj [("@context", .str "u4")])
  else if u == "u4" then .ok (.obj [("@context", .str "u5")])
  else if u == "u5" then .ok (.obj [("@context", .obj [])])
  else .error "missing"

/-! ### Claim C6: term-definition invariants -/

/-- The invariant claimed for every installed term definition: a reverse
term has no language mapping and only `@set`/`@index` containers, and type
and language mappings are never both present. -/
def termOk (t : Term) : Bool :=
  (!t.reverse || (t.language_mapping.isNone &&
      (match t.container_mapping with
       | none => true
       | some c => c == "@set" || c == "@index"))) &&
  !(t.type_mapping.isSome && t.language_mapping.isSome)

/-- All terms of a term map satisfy `termOk`. -/
def termsOk (ts : List (String × Term)) : Bool := ts.all fun p => termOk p.2


/-! ### General lemmas about the association-list operations -/

theorem aFind_insert_self {α : Type} (m : List (String × α)) (k : String) (v : α) :
    aFind (aInsert m k v) k = some v := by
  induction m with
  | nil => simp [aInsert, aFind]
  | cons p rest ih =>
    by_cases h : p.1 == k
    · simp [aInsert, aFind, h]
    · simp only [aInsert, aFind]
      rw [show (p.1 == k) = false from by simpa using h]
      simpa [aFind, h] using ih

theorem andThenR_eq_ok {ε α β : Type} {x : Option (Except ε α)} {g : α → Option (Except ε β)}
    {b : β} (h : andThenR x g = some (.ok b)) :
    ∃ a, x = some (.ok a) ∧ g a = some (.ok b) := by
  cases x with
  | none => simp [andThenR] at h
  | some e =>
    cases e with
    | error e => simp [andThenR] at h
    | ok a => exact ⟨a, rfl, h⟩

/-! ### Claims -/

/-- Claim C1.  The spec says a `null` local-context element resets the
active context while carrying the caller's base IRI over.  The code
(src/creation.rs:519-522) runs `self = Context::new(); self.base_iri =
self.base_iri.clone();` — the second statement reads the base of the
freshly allocated context, so it is a no-op and the base IRI is dropped:
starting from a context whose base is `http://h/`, processing `null`
returns a context with no base IRI. -/
theorem c1_null_reset_drops_base :
    (⟨Url.parse "http://h/", none, none, []⟩ : Context).base_iri =
      some ⟨"http", "h", [""], false, ""⟩ ∧
    processContext 10 noLoader ⟨Url.parse "http://h/", none, none, []⟩ .null [] =
      some (.ok ([], Context.new)) ∧
    Context.new.base_iri = none :=
  ⟨rfl, rfl, rfl⟩

/-- Claim C3.  The spec says the pure expander is total, but
`expand_iri` unwraps `base_iri.join(val)` (src/creation.rs:243).  A
cannot-be-a-base base IRI is reachable (e.g. `{"@base": "mailto:x@y"}`),
and joining a relative reference onto it fails, so the `unwrap` panics:
the model returns `none` there. -/
theorem c3_expand_iri_join_panic :
    processContext 10 noLoader Context.new (.obj [("@base", .str "mailto:x@y")]) [] =
      some (.ok ([], ⟨some ⟨"mailto", "", [], true, "x@y"⟩, none, none, []⟩)) ∧
    expandIri ⟨some ⟨"mailto", "", [], true, "x@y"⟩, none, none, []⟩ "foo" true false = none :=
  ⟨rfl, rfl⟩

/-- Claim C5 counterexample.  A successful `process_context` run can install
a term that begins with `@` (e.g. `"@foo"`, which is not in the keyword
set); the pure expander's keyword pass-through (step 1) then returns the
term itself instead of its `iri_mapping`. -/
theorem c5_at_term_counterexample :
    processContext 10 noLoader Context.new (.obj [("@foo", .obj [("@id", .str "http://x/y")])]) [] =
      some (.ok ([], ⟨none, none, none, [("@foo", ⟨none, "http://x/y", false, none, none⟩)]⟩)) ∧
    aFind [("@foo", (⟨none, "http://x/y", false, none, none⟩ : Term))] "@foo" =
      some ⟨none, "http://x/y", false, none, none⟩ ∧
    expandIri ⟨none, none, none, [("@foo", ⟨none, "http://x/y", false, none, none⟩)]⟩
      "@foo" false true = some "@foo" ∧
    ("@foo" : String) ≠ "http://x/y" :=
  ⟨rfl, rfl, rfl, by decide⟩

/-- Claim C5, amended: for every term `t` present in the term map that does
not begin with `@`, `expand_iri(ctx, t, false, true)` returns exactly the
stored `iri_mapping` (this covers in particular every context produced by a
successful `process_context` run). -/
theorem c5_expand_installed_term (ctx : Context) (t : String) (d : Term)
    (hfind : aFind ctx.terms t = some d) (hat : strStarts t "@" = false) :
    expandIri ctx t false true = some d.iri_mapping := by
  simp [expandIri, hat, hfind]

theorem c5_expand_installed_term_witness :
    expandIri ⟨none, none, none, [("n", ⟨none, "http://x/", false, none, none⟩)]⟩
      "n" false true = some "http://x/" :=
  c5_expand_installed_term _ "n" ⟨none, "http://x/", false, none, none⟩ rfl rfl

/-- Claim C7.  An `@id` string equal to the term itself yields no IRI
mapping (and no other effect), so the mapping falls through to the later
fallbacks; concretely, `{"@vocab": "http://v/", "name": {"@id": "name"}}`
installs `name` with `iri_mapping = "http://v/name"` via the vocabulary
fallback. -/
theorem c7_id_equal_term_fallback :
    (∀ (f : Nat) (st : TState) (term : String),
        computeIriFromId (f + 1) st term (some (.str term)) = some (.ok (none, st))) ∧
    processContext 20 noLoader Context.new
        (.obj [("@vocab", .str "http://v/"), ("name", .obj [("@id", .str "name")])]) [] =
      some (.ok ([], ⟨none, some "http://v/", none,
        [("name", ⟨none, "http://v/name", false, none, none⟩)]⟩)) := by
  refine ⟨?_, rfl⟩
  intro f st term
  simp [computeIriFromId]

/-- Claim C8.  `@base` handling of an inline context object: with
`remote_contexts` empty, `null` clears the base, a string joins onto the
current base (or is parsed absolutely when there is none) with failures
reported as `InvalidBaseIRI`, and any other JSON type is `InvalidBaseIRI`;
with `remote_contexts` non-empty the entry is consumed but ignored.
Concretely, base `http://h/x/` plus `{"@base": "sub/"}` gives
`http://h/x/sub/`. -/
theorem c8_base_handling :
    (∀ (ctx : Context) (m : JMap) (v : Value),
      applyBase ctx (("@base", v) :: m) true =
        (match v with
         | .null => .ok ({ ctx with base_iri := none }, m)
         | .str s =>
           (match ctx.base_iri with
            | some iri =>
              (match iri.join s with
               | some j => .ok ({ ctx with base_iri := some j }, m)
               | none => .error .InvalidBaseIRI)
            | none =>
              (match Url.parse s with
               | some j => .ok ({ ctx with base_iri := some j }, m)
               | none => .error .InvalidBaseIRI))
         | _ => .error .InvalidBaseIRI)) ∧
    (∀ (ctx : Context) (m : JMap) (v : Value),
      applyBase ctx (("@base", v) :: m) false = .ok (ctx, m)) ∧
    processContext 10 noLoader ⟨Url.parse "http://h/x/", none, none, []⟩
        (.obj [("@base", .str "sub/")]) [] =
      some (.ok ([], ⟨Url.parse "http://h/x/sub/", none, none, []⟩)) := by
  refine ⟨?_, ?_, rfl⟩
  · intro ctx m v
    cases v with
    | str s =>
      cases hb : ctx.base_iri with
      | some iri => cases hj : iri.join s <;> simp [applyBase, aRemove, aFind, aErase, hb, hj]
      | none => cases hp : Url.parse s <;> simp [applyBase, aRemove, aFind, aErase, hb, hp]
    | null => simp [applyBase, aRemove, aFind, aErase]
    | bool b => simp [applyBase, aRemove, aFind, aErase]
    | num n => simp [applyBase, aRemove, aFind, aErase]
    | arr a => simp [applyBase, aRemove, aFind, aErase]
    | obj o => simp [applyBase, aRemove, aFind, aErase]
  · intro ctx m v
    simp [applyBase, aRemove, aFind, aErase]

/-- Claim C9.  In the reverse branch, an `@container` value other than the
string `"@set"`, the string `"@index"`, or `null` fails with
`InvalidReverseProperty`; concretely the S5 context produces
`InvalidTerm(InvalidReverseProperty)`. -/
theorem c9_reverse_container :
    (∀ v : Value, v ≠ .null → v ≠ .str "@set" → v ≠ .str "@index" →
        revContainer (some v) = .error .InvalidReverseProperty) ∧
    processContext 20 noLoader Context.new
        (.obj [("ex", .str "http://e/"),
               ("rev", .obj [("@container", .str "@list"), ("@reverse", .str "ex:p")])]) [] =
      some (.error (.InvalidTerm .InvalidReverseProperty)) := by
  refine ⟨?_, rfl⟩
  intro v h0 h1 h2
  cases v with
  | null => exact absurd rfl h0
  | str s =>
    have hs1 : s ≠ "@set" := fun h => h1 (by rw [h])
    have hs2 : s ≠ "@index" := fun h => h2 (by rw [h])
    simp [revContainer, hs1, hs2]
  | bool b => rfl
  | num n => rfl
  | arr a => rfl
  | obj o => rfl

theorem c9_reverse_container_witness :
    revContainer (some (.str "@list")) = .error .InvalidReverseProperty ∧
    Value.str "@list" ≠ Value.null :=
  ⟨c9_reverse_container.1 (.str "@list")
      (fun h => Value.noConfusion h)
      (fun h => by injection h with h'; exact absurd h' (by decide))
      (fun h => by injection h with h'; exact absurd h' (by decide)),
   fun h => Value.noConfusion h⟩

/-- Claim C4, amended.  The `defined`-map prologue of `create_term` behaves
as claimed: a `Defining` status fails with `CyclicIRIMapping`, a `Defined`
status succeeds without changing any state.  The concrete cycle
`{"a": {"@id": "b:x"}, "b": {"@id": "a:y"}}`, however, fails with
`InvalidTerm(InvalidIRIMapping)`: at the time `b` is defined, `a` has
already been drained out of the residual context object, so `a:y` stays an
unexpanded compact IRI and fails the absolute-IRI check, before any cyclic
re-entry can occur. -/
theorem c4_defined_map_behavior :
    (∀ (f : Nat) (st : TState) (term : String) (v : Value),
        aFind st.defined term = some .Defining →
        createTerm (f + 1) st term v = some (.error .CyclicIRIMapping)) ∧
    (∀ (f : Nat) (st : TState) (term : String) (v : Value),
        aFind st.defined term = some .Defined →
        createTerm (f + 1) st term v = some (.ok st)) ∧
    processContext 20 noLoader Context.new
        (.obj [("a", .obj [("@id", .str "b:x")]), ("b", .obj [("@id", .str "a:y")])]) [] =
      some (.error (.InvalidTerm .InvalidIRIMapping)) := by
  refine ⟨?_, ?_, rfl⟩ <;>
    · intro f st term v h
      simp [createTerm, h]

theorem c4_defined_map_behavior_witness :
    createTerm 1 ⟨Context.new, [], [("t", .Defining)]⟩ "t" .null =
      some (.error .CyclicIRIMapping) ∧
    createTerm 1 ⟨Context.new, [], [("u", .Defined)]⟩ "u" .null =
      some (.ok ⟨Context.new, [], [("u", .Defined)]⟩) :=
  ⟨c4_defined_map_behavior.1 0 ⟨Context.new, [], [("t", .Defining)]⟩ "t" .null rfl,
   c4_defined_map_behavior.2.1 0 ⟨Context.new, [], [("u", .Defined)]⟩ "u" .null rfl⟩

/-- Claim C4 counterexample: the S6 cycle input does not produce
`CyclicIRIMapping`. -/
theorem c4_cycle_example_not_cyclic :
    processContext 20 noLoader Context.new
        (.obj [("a", .obj [("@id", .str "b:x")]), ("b", .obj [("@id", .str "a:y")])]) [] ≠
      some (.error (.InvalidTerm .CyclicIRIMapping)) := by
  intro h
  rw [show processContext 20 noLoader Context.new
      (.obj [("a", .obj [("@id", .str "b:x")]), ("b", .obj [("@id", .str "a:y")])]) [] =
      some (.error (.InvalidTerm .InvalidIRIMapping)) from rfl] at h
  simp at h

/-- Claim C2, amended.  The remote-context guard fires exactly when a string
element is processed while `remote_contexts` already holds more than 4
entries; since each link of a reference chain adds one entry *before*
recursing, a chain of six remote references fails with `TooManyContexts`
(the sixth is processed with 5 entries present), while a chain of five
succeeds. -/
theorem c2_remote_cap :
    (∀ (f : Nat) (ldr : Loader) (ctx : Context) (s : String) (rest : List Value) (remote : RMap),
        4 < remote.length →
        processElems (f + 1) ldr ctx (.str s :: rest) remote = some (.error .TooManyContexts)) ∧
    processContext 40 chainLdr6 Context.new (.str "u1") [] = some (.error .TooManyContexts) := by
  refine ⟨?_, rfl⟩
  intro f ldr ctx s rest remote h
  simp [processElems, h]

theorem c2_remote_cap_witness :
    processElems 1 noLoader Context.new [.str "x"]
      [("a", (none : Option Value)), ("b", none), ("c", none), ("d", none), ("e", none)] =
      some (.error .TooManyContexts) :=
  c2_remote_cap.1 0 noLoader Context.new "x" []
    [("a", none), ("b", none), ("c", none), ("d", none), ("e", none)] (by decide)

/-- Claim C2 counterexample: a chain of five remote references (nesting
depth 5 > 4) does not produce `TooManyContexts`; it succeeds. -/
theorem c2_depth5_chain_succeeds :
    processContext 40 chainLdr5 Context.new (.str "u1") [] =
      some (.ok ([("u1", some (.str "u2")), ("u2", some (.str "u3")), ("u3", some (.str "u4")),
        ("u4", some (.str "u5")), ("u5", some (.obj []))], Context.new)) ∧
    processContext 40 chainLdr5 Context.new (.str "u1") [] ≠
      some (.error .TooManyContexts) := by
  refine ⟨rfl, ?_⟩
  intro h
  rw [show processContext 40 chainLdr5 Context.new (.str "u1") [] =
      some (.ok (([("u1", some (.str "u2")), ("u2", some (.str "u3")), ("u3", some (.str "u4")),
        ("u4", some (.str "u5")), ("u5", some (.obj []))] : RMap), Context.new)) from rfl] at h
  simp at h

/-- Every successful run of the object case of `create_term` ends by
setting the term's `defined` status to `Defined` (step 11.6 resp. 18). -/
theorem createTermObj_marks_defined (f : Nat) (st : TState) (term : String) (map : JMap)
    (st' : TState) (h : createTermObj f st term map = some (.ok st')) :
    aFind st'.defined term = some .Defined := by
  cases f with
  | zero => simp [createTermObj] at h
  | succ f =>
    simp only [createTermObj, aRemove] at h
    obtain ⟨r1, h1, h⟩ := andThenR_eq_ok h
    split at h
    · -- reverse branch
      split at h
      · simp at h
      · obtain ⟨r2, h2, h⟩ := andThenR_eq_ok h
        split at h
        · simp at h
        · injection h with h'
          injection h' with h''
          subst h''
          exact aFind_insert_self _ term DefineStatus.Defined
    · -- forward branch
      obtain ⟨r2, h2, h⟩ := andThenR_eq_ok h
      obtain ⟨r3, h3, h⟩ := andThenR_eq_ok h
      split at h
      · simp at h
      · split at h
        · simp at h
        · split at h
          · simp at h
          · injection h with h'
            injection h' with h''
            subst h''
            exact aFind_insert_self _ term DefineStatus.Defined

/-- Claim C10.  A successful `create_term` on a `null`-valued term installs
the placeholder definition but leaves the term's `defined` status at
`Defining` (src/creation.rs:289-303 never marks it `Defined`), so a second
call on the same term in the same pass fails with `CyclicIRIMapping`;
every other successful definition path marks the term `Defined`. -/
theorem c10_null_value_leaves_defining :
    (∀ (f : Nat) (st : TState) (term : String),
        aFind st.defined term = none → KEYWORDS.contains term = false →
        createTerm (f + 1) st term .null = some (.ok
          (TState.mk
            { st.ctx with terms := aInsert (aErase st.ctx.terms term) term (Term.mk none term false none none) }
            st.lctx
            (aInsert st.defined term .Defining)))) ∧
    (∀ (f : Nat) (c : Context) (l : JMap) (d : DMap) (term : String) (v : Value),
        createTerm (f + 1) ⟨c, l, aInsert d term .Defining⟩ term v =
          some (.error .CyclicIRIMapping)) ∧
    (∀ (f : Nat) (st : TState) (term : String) (v : Value) (st' : TState),
        v ≠ .null → aFind st.defined term = none →
        createTerm f st term v = some (.ok st') →
        aFind st'.defined term = some .Defined) := by
  refine ⟨?_, ?_, ?_⟩
  · intro f st term hd hkw
    simp [createTerm, hd, hkw]
    simpa using hkw
  · intro f c l d term v
    have hself := aFind_insert_self d term .Defining
    simp [createTerm, hself]
  · intro f st term v st' hv hd h
    cases f with
    | zero => simp [createTerm] at h
    | succ f =>
      simp only [createTerm, hd] at h
      split at h
      · simp at h
      · cases v with
        | null => exact absurd rfl hv
        | str s => exact createTermObj_marks_defined f _ term _ st' h
        | obj map => exact createTermObj_marks_defined f _ term _ st' h
        | bool b => simp at h
        | num n => simp at h
        | arr a => simp at h

theorem termsOk_erase (m : List (String × Term)) (k : String) (h : termsOk m = true) :
    termsOk (aErase m k) = true := by
  induction m with
  | nil => simpa [aErase] using h
  | cons p rest ih =>
    obtain ⟨pk, pv⟩ := p
    simp only [termsOk, List.all_cons, Bool.and_eq_true] at h
    by_cases hk : (pk == k) = true
    · simpa [aErase, hk, termsOk] using h.2
    · simp only [aErase]
      rw [if_neg hk]
      simp only [termsOk, List.all_cons, Bool.and_eq_true]
      exact ⟨h.1, ih h.2⟩

theorem termsOk_insert (m : List (String × Term)) (k : String) (t : Term)
    (h : termsOk m = true) (ht : termOk t = true) : termsOk (aInsert m k t) = true := by
  induction m with
  | nil => simpa [aInsert, termsOk] using ht
  | cons p rest ih =>
    obtain ⟨pk, pv⟩ := p
    simp only [termsOk, List.all_cons, Bool.and_eq_true] at h
    by_cases hk : (pk == k) = true
    · simp only [aInsert, hk, if_true]
      simp only [termsOk, List.all_cons, Bool.and_eq_true]
      exact ⟨ht, h.2⟩
    · simp only [aInsert]
      rw [if_neg hk]
      simp only [termsOk, List.all_cons, Bool.and_eq_true]
      exact ⟨h.1, ih h.2⟩

theorem revContainer_ok (x : Option Value) (c : Option String)
    (h : revContainer x = .ok c) :
    c = none ∨ c = some "@set" ∨ c = some "@index" := by
  simp only [revContainer] at h
  split at h
  · left; injection h with h'; exact h'.symm
  · rename_i s
    split at h
    · rename_i hcond
      injection h with h'
      subst h'
      rcases Bool.or_eq_true_iff.mp hcond with hs | hs
      · right; left; rw [show s = "@set" from by simpa using hs]
      · right; right; rw [show s = "@index" from by simpa using hs]
    · exact absurd h (by simp)
  · left; injection h with h'; exact h'.symm
  · exact absurd h (by simp)

theorem fwdLanguage_ok (tm : Option String) (al : Option Value) (lm : Option String)
    (h : fwdLanguage tm al = .ok lm) : tm = none ∨ lm = none := by
  cases tm with
  | some t =>
    right
    simp only [fwdLanguage] at h
    injection h with h'
    exact h'.symm
  | none => left; rfl

/-- Invariant preservation across one fuel level of the mutually recursive
term-definition functions. -/
theorem ctInv_all : ∀ f : Nat,
    (∀ (st : TState) (term : String) (v : Value) (st' : TState),
        createTerm f st term v = some (.ok st') →
        termsOk st.ctx.terms = true → termsOk st'.ctx.terms = true) ∧
    (∀ (st : TState) (term : String) (map : JMap) (st' : TState),
        createTermObj f st term map = some (.ok st') →
        termsOk st.ctx.terms = true → termsOk st'.ctx.terms = true) ∧
    (∀ (st : TState) (a : Option Value) (r : Option String × TState),
        computeTypeMapping f st a = some (.ok r) →
        termsOk st.ctx.terms = true → termsOk r.2.ctx.terms = true) ∧
    (∀ (st : TState) (a : Value) (r : String × TState),
        computeReverseIri f st a = some (.ok r) →
        termsOk st.ctx.terms = true → termsOk r.2.ctx.terms = true) ∧
    (∀ (st : TState) (term : String) (a : Option Value) (r : Option String × TState),
        computeIriFromId f st term a = some (.ok r) →
        termsOk st.ctx.terms = true → termsOk r.2.ctx.terms = true) ∧
    (∀ (st : TState) (term a b : String) (r : String × TState),
        fallbackColon f st term a b = some (.ok r) →
        termsOk st.ctx.terms = true → termsOk r.2.ctx.terms = true) ∧
    (∀ (st : TState) (val : String) (dr vb : Bool) (r : String × TState),
        expandIriMut f st val dr vb = some (.ok r) →
        termsOk st.ctx.terms = true → termsOk r.2.ctx.terms = true) := by
  intro f
  induction f with
  | zero =>
    refine ⟨?_, ?_, ?_, ?_, ?_, ?_, ?_⟩ <;>
      (intros
       simp_all [createTerm, createTermObj, computeTypeMapping, computeReverseIri,
        computeIriFromId, fallbackColon, expandIriMut])
  | succ f ih =>
    obtain ⟨ihC, ihCO, ihT, ihR, ihI, ihF, ihE⟩ := ih
    refine ⟨?_, ?_, ?_, ?_, ?_, ?_, ?_⟩
    · -- createTerm
      intro st term v st' h ht
      simp only [createTerm] at h
      split at h
      · exact absurd h (by simp)
      · injection h with h'
        injection h' with h''
        subst h''
        exact ht
      · split at h
        · exact absurd h (by simp)
        · cases v with
          | null =>
            injection h with h'
            injection h' with h''
            subst h''
            exact termsOk_insert _ term _ (termsOk_erase _ term ht) rfl
          | str s => exact ihCO _ term _ st' h (termsOk_erase _ term ht)
          | obj map => exact ihCO _ term _ st' h (termsOk_erase _ term ht)
          | bool b => exact absurd h (by simp)
          | num n => exact absurd h (by simp)
          | arr a => exact absurd h (by simp)
    · -- createTermObj
      intro st term map st' h ht
      simp only [createTermObj, aRemove] at h
      obtain ⟨r1, h1, h⟩ := andThenR_eq_ok h
      have ht1 : termsOk r1.2.ctx.terms = true := ihT _ _ _ h1 ht
      split at h
      · -- reverse branch
        split at h
        · exact absurd h (by simp)
        · obtain ⟨r2, h2, h⟩ := andThenR_eq_ok h
          have ht2 : termsOk r2.2.ctx.terms = true := ihR _ _ _ h2 ht1
          split at h
          · exact absurd h (by simp)
          · rename_i c hc
            injection h with h'
            injection h' with h''
            subst h''
            refine termsOk_insert _ term _ ht2 ?_
            rcases revContainer_ok _ _ hc with rfl | rfl | rfl <;> simp [termOk]
      · -- forward branch
        obtain ⟨r2, h2, h⟩ := andThenR_eq_ok h
        have ht2 : termsOk r2.2.ctx.terms = true := ihI _ _ _ _ h2 ht1
        obtain ⟨r3, h3, h⟩ := andThenR_eq_ok h
        have ht3 : termsOk r3.2.ctx.terms = true := by
          split at h3
          · injection h3 with h'
            injection h' with h''
            subst h''
            exact ht2
          · split at h3
            · obtain ⟨r4, h4, h5⟩ := andThenR_eq_ok h3
              injection h5 with h'
              injection h' with h''
              subst h''
              exact ihF _ _ _ _ _ h4 ht2
            · injection h3 with h'
              injection h' with h''
              subst h''
              exact ht2
        split at h
        · exact absurd h (by simp)
        · split at h
          · exact absurd h (by simp)
          · split at h
            · exact absurd h (by simp)
            · rename_i lm hlm
              injection h with h'
              injection h' with h''
              subst h''
              refine termsOk_insert _ term _ ht3 ?_
              rcases fwdLanguage_ok _ _ _ hlm with hnone | hnone <;> simp [termOk, hnone]
    · -- computeTypeMapping
      intro st a r h ht
      simp only [computeTypeMapping] at h
      split at h
      · injection h with h'
        injection h' with h''
        subst h''
        exact ht
      · obtain ⟨re, he, h⟩ := andThenR_eq_ok h
        have := ihE _ _ _ _ _ he ht
        split at h
        · exact absurd h (by simp)
        · injection h with h'
          injection h' with h''
          subst h''
          exact this
      · exact absurd h (by simp)
    · -- computeReverseIri
      intro st a r h ht
      simp only [computeReverseIri] at h
      split at h
      · obtain ⟨re, he, h⟩ := andThenR_eq_ok h
        have := ihE _ _ _ _ _ he ht
        split at h
        · exact absurd h (by simp)
        · injection h with h'
          injection h' with h''
          subst h''
          exact this
      · exact absurd h (by simp)
    · -- computeIriFromId
      intro st term a r h ht
      simp only [computeIriFromId] at h
      split at h
      · injection h with h'
        injection h' with h''
        subst h''
        exact ht
      · split at h
        · injection h with h'
          injection h' with h''
          subst h''
          exact ht
        · obtain ⟨re, he, h⟩ := andThenR_eq_ok h
          have := ihE _ _ _ _ _ he ht
          split at h
          · exact absurd h (by simp)
          · split at h
            · exact absurd h (by simp)
            · injection h with h'
              injection h' with h''
              subst h''
              exact this
      · injection h with h'
        injection h' with h''
        subst h''
        exact ht
      · exact absurd h (by simp)
    · -- fallbackColon
      intro st term a b r h ht
      simp only [fallbackColon] at h
      obtain ⟨st2, h1, h⟩ := andThenR_eq_ok h
      have ht2 : termsOk st2.ctx.terms = true := by
        split at h1
        · exact ihC _ _ _ _ h1 ht
        · injection h1 with h'
          injection h' with h''
          subst h''
          exact ht
      split at h
      · injection h with h'
        injection h' with h''
        subst h''
        exact ht2
      · injection h with h'
        injection h' with h''
        subst h''
        exact ht2
    · -- expandIriMut
      intro st val dr vb r h ht
      simp only [expandIriMut] at h
      split at h
      · injection h with h'
        injection h' with h''
        subst h''
        exact ht
      · obtain ⟨st2, h1, h⟩ := andThenR_eq_ok h
        have ht2 : termsOk st2.ctx.terms = true := by
          split at h1
          · exact ihC _ _ _ _ h1 ht
          · injection h1 with h'
            injection h' with h''
            subst h''
            exact ht
        split at h
        · injection h with h'
          injection h' with h''
          subst h''
          exact ht2
        · split at h
          · split at h
            · injection h with h'
              injection h' with h''
              subst h''
              exact ht2
            · obtain ⟨st3, h2, h⟩ := andThenR_eq_ok h
              have ht3 : termsOk st3.ctx.terms = true := by
                split at h2
                · exact ihC _ _ _ _ h2 ht2
                · injection h2 with h'
                  injection h' with h''
                  subst h''
                  exact ht2
              split at h
              · injection h with h'
                injection h' with h''
                subst h''
                exact ht3
              · injection h with h'
                injection h' with h''
                subst h''
                exact ht3
          · split at h
            · injection h with h'
              injection h' with h''
              subst h''
              exact ht2
            · split at h
              · split at h
                · injection h with h'
                  injection h' with h''
                  subst h''
                  exact ht2
                · exact absurd h (by simp)
              · injection h with h'
                injection h' with h''
                subst h''
                exact ht2

theorem applyBase_terms (ctx : Context) (m : JMap) (re : Bool) (r : Context × JMap)
    (h : applyBase ctx m re = .ok r) : r.1.terms = ctx.terms := by
  simp only [applyBase, aRemove] at h
  split at h
  · split at h
    · injection h with h'; subst h'; rfl
    · split at h
      · split at h
        · injection h with h'; subst h'; rfl
        · exact absurd h (by simp)
      · split at h
        · injection h with h'; subst h'; rfl
        · exact absurd h (by simp)
    · exact absurd h (by simp)
  · injection h with h'; subst h'; rfl

theorem applyVocab_terms (ctx : Context) (m : JMap) (r : Context × JMap)
    (h : applyVocab ctx m = .ok r) : r.1.terms = ctx.terms := by
  simp only [applyVocab, aRemove] at h
  split at h
  · injection h with h'; subst h'; rfl
  · injection h with h'; subst h'; rfl
  · injection h with h'; subst h'; rfl
  · exact absurd h (by simp)

theorem applyLanguage_terms (ctx : Context) (m : JMap) (r : Context × JMap)
    (h : applyLanguage ctx m = .ok r) : r.1.terms = ctx.terms := by
  simp only [applyLanguage, aRemove] at h
  split at h
  · injection h with h'; subst h'; rfl
  · injection h with h'; subst h'; rfl
  · injection h with h'; subst h'; rfl
  · exact absurd h (by simp)

theorem drain_inv (f : Nat) :
    ∀ (ctx : Context) (map : JMap) (d : DMap) (r : Context × DMap),
      drain f ctx map d = some (.ok r) → termsOk ctx.terms = true → termsOk r.1.terms = true := by
  induction f with
  | zero => intro ctx map d r h; simp [drain] at h
  | succ f ih =>
    intro ctx map d r h ht
    simp only [drain] at h
    split at h
    · injection h with h'
      injection h' with h''
      subst h''
      exact ht
    · obtain ⟨st2, h1, h⟩ := andThenR_eq_ok h
      exact ih _ _ _ _ h ((ctInv_all f).1 _ _ _ _ h1 ht)

theorem processElems_inv (f : Nat) :
    ∀ (ldr : Loader) (ctx : Context) (l : List Value) (remote : RMap) (r : RMap × Context),
      processElems f ldr ctx l remote = some (.ok r) → termsOk ctx.terms = true →
      termsOk r.2.terms = true := by
  induction f with
  | zero => intro ldr ctx l remote r h; simp [processElems] at h
  | succ f ih =>
    intro ldr ctx l remote r h ht
    simp only [processElems] at h
    split at h
    · injection h with h'
      injection h' with h''
      subst h''
      exact ht
    · split at h
      · -- null element: fresh empty context
        exact ih _ _ _ _ _ h rfl
      · -- string element
        split at h
        · exact absurd h (by simp)
        · split at h
          · exact absurd h (by simp)
          · obtain ⟨rs, h1, h⟩ := andThenR_eq_ok h
            exact ih _ _ _ _ _ h (ih _ _ _ _ _ h1 ht)
          · split at h
            · exact absurd h (by simp)
            · split at h
              · obtain ⟨rs, h1, h⟩ := andThenR_eq_ok h
                exact ih _ _ _ _ _ h (ih _ _ _ _ _ h1 ht)
              · exact absurd h (by simp)
      · -- object element
        split at h
        · exact absurd h (by simp)
        · rename_i pb hpb
          split at h
          · exact absurd h (by simp)
          · rename_i pv hpv
            split at h
            · exact absurd h (by simp)
            · rename_i pl hpl
              split at h
              · exact absurd h (by simp)
              · exact absurd h (by simp)
              · rename_i pd hpd
                have h1 : termsOk pl.1.terms = true := by
                  rw [applyLanguage_terms _ _ _ hpl, applyVocab_terms _ _ _ hpv,
                    applyBase_terms _ _ _ _ hpb]
                  exact ht
                exact ih _ _ _ _ _ h (drain_inv f _ _ _ _ hpd h1)
      · exact absurd h (by simp)

/-- Claim C6.  Every term definition installed by a successful operation
(a `process_context` run, or any `create_term` call) satisfies the claimed
invariants: a reverse term has no language mapping and its container, if
present, is `@set` or `@index`; and type and language mappings are never
both present. -/
theorem c6_term_invariants :
    (∀ (fuel : Nat) (ldr : Loader) (ctx : Context) (lc : Value) (remote : RMap)
        (rm : RMap) (ctx' : Context),
        termsOk ctx.terms = true →
        processContext fuel ldr ctx lc remote = some (.ok (rm, ctx')) →
        termsOk ctx'.terms = true) ∧
    (∀ (f : Nat) (st : TState) (term : String) (v : Value) (st' : TState),
        termsOk st.ctx.terms = true →
        createTerm f st term v = some (.ok st') →
        termsOk st'.ctx.terms = true) := by
  constructor
  · intro fuel ldr ctx lc remote rm ctx' ht h
    exact processElems_inv fuel ldr ctx _ remote (rm, ctx') h ht
  · intro f st term v st' ht h
    exact (ctInv_all f).1 st term v st' h ht

theorem c6_term_invariants_witness :
    termsOk [("name", (⟨none, "http://v/name", false, none, none⟩ : Term))] = true :=
  c6_term_invariants.1 20 noLoader Context.new
    (.obj [("@vocab", .str "http://v/"), ("name", .obj [("@id", .str "name")])]) [] []
    ⟨none, some "http://v/", none, [("name", ⟨none, "http://v/name", false, none, none⟩)]⟩
    rfl rfl

theorem c10_null_value_leaves_defining_witness :
    createTerm 1 ⟨Context.new, [], []⟩ "t" .null = some (.ok
      ⟨⟨none, none, none, [("t", ⟨none, "t", false, none, none⟩)]⟩, [], [("t", .Defining)]⟩) ∧
    createTerm 1 ⟨Context.new, [], [("t", .Defining)]⟩ "t" .null =
      some (.error .CyclicIRIMapping) ∧
    aFind ([("t", DefineStatus.Defined)] : DMap) "t" = some .Defined :=
  ⟨c10_null_value_leaves_defining.1 0 ⟨Context.new, [], []⟩ "t" rfl rfl,
   c10_null_value_leaves_defining.2.1 0 Context.new [] [] "t" .null,
   c10_null_value_leaves_defining.2.2 6 ⟨Context.new, [], []⟩ "t"
     (.obj [("@id", .str "http://x/y")])
     ⟨⟨none, none, none, [("t", ⟨none, "http://x/y", false, none, none⟩)]⟩, [], [("t", .Defined)]⟩
     (fun h => Value.noConfusion h) rfl rfl⟩
